import Mathlib

/-!
Shallow embedding of the `net` C++ socket wrapper (PaulHowes/net) for
verification of its specification claims.

The embedding models:
* `socket::read_line` / `socket::write_line` (src/include/net/socket.hpp,
  lines 77-108 and 134-137) at the level of the connected byte stream:
  the pending input of a socket is a `List Char` of bytes, a peeking
  `recv` returns a copy of up to `length` bytes, a consuming `recv`
  removes them.
* `socket::read` and `socket::write` (lines 63-71 and 116-127) at the
  level of the raw OS-call results: the return value of `::recv` /
  `::send` is an `Int` (the C `ssize_t`), `errno` is an `Int`, and the
  C++ exception becomes an `Except` error value.
* `socket_impl::connect` (lines 177-215), `server::do_connect`
  (src/include/net/server.hpp lines 48-77) and `client::do_connect`
  (src/include/net/client.hpp lines 42-48) as state transformers over a
  descriptor/address-list state, parameterised by the outcomes of the OS
  calls (`getaddrinfo`, `::socket`, `setsockopt`, `bind`, `listen`,
  `::connect`), emitting a trace of the OS calls actually performed so
  that ordering and omission of calls is provable.
* the lifetime of `net::socket` handles (constructor, copy constructor,
  destructor, lines 25-53) as a small operational semantics over a world
  of live handles, emitting `close` events.

Error messages are modelled as the C++ code builds them, except that the
text produced by `gai_strerror` is elided (only the numeric code, which
the claims are about, is embedded).
-/

namespace Net

/-- C++ `net::socket_error`: the single error kind, carrying a message. -/
structure socket_error where
  msg : String
deriving Repr, DecidableEq

/-- `BUFFER_SIZE` from `socket::read_line`. -/
def BUFFER_SIZE : Nat := 4096

/-- The EOL-marker test `*p == '\r' || *p == '\n'` from `socket::read_line`. -/
def isEolMarker (c : Char) : Bool := c = '\r' || c = '\n'

/-- The scan loop of `socket::read_line`:
`while((p - buffer) < read_length && found_eol < 2) ...`.
Given the peeked buffer contents and the current value of `found_eol`,
returns the final `(p - buffer, found_eol)`. -/
def scanEol : List Char → Nat → Nat × Nat
  | [], found => (0, found)
  | c :: rest, found =>
    if found < 2 then
      let found1 := if isEolMarker c then found + 1 else found
      let r := scanEol rest found1
      (r.1 + 1, r.2)
    else (0, found)

/-- Success path of `::recv(fd, buffer, length, ...)` on a stream whose
pending bytes are `available`: the bytes placed into the buffer. -/
def recvBytes (available : List Char) (length : Nat) : List Char :=
  available.take length

/-- `socket::read_line` over the pending byte stream `available`.
Returns the result (the line, or the thrown `socket_error`) together
with the bytes still pending on the socket afterwards.

Faithful to the source: peek up to `BUFFER_SIZE` bytes; if nothing was
read return `""`; scan for two EOL markers; if fewer than two were found
throw `"Line not found: <found_eol>"` (consuming nothing); otherwise do
a consuming read of `p - buffer` bytes and return that buffer minus its
last two bytes (`std::string(buffer, read_length - 2)`). -/
def read_line (available : List Char) :
    Except socket_error (List Char) × List Char :=
  let buffer := recvBytes available BUFFER_SIZE
  let read_length := buffer.length
  if read_length > 0 then
    let s := scanEol buffer 0
    if s.2 < 2 then
      (Except.error ⟨"Line not found: " ++ toString s.2⟩, available)
    else
      let consumed := recvBytes available s.1
      let read_length2 := consumed.length
      (Except.ok (consumed.take (read_length2 - 2)), available.drop s.1)
  else
    (Except.ok [], available)

/-- The bytes `socket::write_line` hands to `write`:
`line + "\r\n"`. -/
def write_line_frame (line : List Char) : List Char :=
  line ++ ['\r', '\n']

/-! ### Lemmas about the scan loop -/

/-- Once `found_eol` has reached 2 the loop body is never entered. -/
theorem scanEol_of_two_le (l : List Char) (f : Nat) (h : 2 ≤ f) :
    scanEol l f = (0, f) := by
  cases l with
  | nil => rfl
  | cons c rest => simp [scanEol, Nat.not_lt.mpr h]

/-- Scanning marker-free bytes followed by CRLF stops just past the LF. -/
theorem scanEol_clean_crlf (X t : List Char)
    (hX : ∀ c ∈ X, isEolMarker c = false) :
    scanEol (X ++ '\r' :: '\n' :: t) 0 = (X.length + 2, 2) := by
  induction X with
  | nil =>
      simp [scanEol, isEolMarker, scanEol_of_two_le t 2 (le_refl 2)]
  | cons c X ih =>
      have hc : isEolMarker c = false := hX c (List.mem_cons_self c X)
      have ih' := ih (fun d hd => hX d (List.mem_cons_of_mem c hd))
      simp [scanEol, hc, ih']

/-- C1 helper: the window `read_line` peeks from a framed line. -/
theorem take_window (X rest : List Char) (h : X.length + 2 ≤ BUFFER_SIZE) :
    (write_line_frame X ++ rest).take BUFFER_SIZE =
      X ++ '\r' :: '\n' :: rest.take (BUFFER_SIZE - (X.length + 2)) := by
  have h1 : (write_line_frame X ++ rest) = X ++ '\r' :: '\n' :: rest := by
    simp [write_line_frame]
  rw [h1, List.take_append_eq_append_take, List.take_of_length_le (by omega)]
  congr 1
  have h2 : BUFFER_SIZE - X.length = (BUFFER_SIZE - X.length - 2) + 2 := by
    omega
  rw [h2]
  simp [List.take_succ_cons]
  have h3 : BUFFER_SIZE - X.length - 2 = BUFFER_SIZE - (X.length + 2) := by
    omega
  rw [h3]

/-- C1: `write_line(X)` on one handle followed by `read_line()` on the
connected peer returns exactly `X`, for any `X` free of EOL-marker bytes
whose framed length fits in the 4096-byte scan window; exactly the frame
is consumed, any later bytes `rest` stay pending. -/
theorem write_line_read_line_round_trip (X rest : List Char)
    (hX : ∀ c ∈ X, isEolMarker c = false)
    (hlen : X.length + 2 ≤ BUFFER_SIZE) :
    read_line (write_line_frame X ++ rest) = (Except.ok X, rest) := by
  have hw := take_window X rest hlen
  have hscan : scanEol ((write_line_frame X ++ rest).take BUFFER_SIZE) 0 =
      (X.length + 2, 2) := by
    rw [hw]; exact scanEol_clean_crlf X _ hX
  have hframe : (write_line_frame X ++ rest) = X ++ '\r' :: '\n' :: rest := by
    simp [write_line_frame]
  have hlen2 : ((write_line_frame X ++ rest).take BUFFER_SIZE).length > 0 := by
    rw [hw]
    simp
  rw [read_line]
  simp only [recvBytes]
  rw [if_pos hlen2, hscan]
  have h2 : ¬ ((X.length + 2, 2).2 < 2) := by simp
  rw [if_neg h2]
  have hconsumed : (write_line_frame X ++ rest).take (X.length + 2) =
      X ++ ['\r', '\n'] := by
    rw [hframe, List.take_append_eq_append_take,
      List.take_of_length_le (by omega)]
    congr 1
    have : X.length + 2 - X.length = 2 := by omega
    rw [this]
    rfl
  have hdrop : (write_line_frame X ++ rest).drop (X.length + 2) = rest := by
    rw [hframe]
    have : X ++ '\r' :: '\n' :: rest = (X ++ ['\r', '\n']) ++ rest := by simp
    rw [this, List.drop_append_of_le_length (by simp)]
    simp
  simp only [hconsumed, hdrop]
  have hlen3 : (X ++ ['\r', '\n']).length = X.length + 2 := by simp
  rw [hlen3]
  have : X.length + 2 - 2 = X.length := by omega
  rw [this]
  simp

/-- Witness for C1 at `X = ['a']`, `rest = []`. -/
theorem write_line_read_line_round_trip_witness :
    read_line (write_line_frame ['a'] ++ []) = (Except.ok ['a'], []) :=
  write_line_read_line_round_trip ['a'] [] (by decide) (by decide)

/-! ### The position of the second EOL marker -/

/-- Index of the `(k+1)`-st EOL-marker byte of a byte list, if present. -/
def nthMarkerIdx : List Char → Nat → Option Nat
  | [], _ => none
  | c :: rest, k =>
    if isEolMarker c then
      match k with
      | 0 => some 0
      | k' + 1 => (nthMarkerIdx rest k').map (· + 1)
    else
      (nthMarkerIdx rest k).map (· + 1)

theorem nthMarkerIdx_lt_length (w : List Char) (k i : Nat)
    (h : nthMarkerIdx w k = some i) : i < w.length := by
  induction w generalizing k i with
  | nil => simp [nthMarkerIdx] at h
  | cons c rest ih =>
      by_cases hc : isEolMarker c
      · cases k with
        | zero =>
            simp [nthMarkerIdx, hc] at h
            simp
            omega
        | succ k' =>
            simp [nthMarkerIdx, hc] at h
            obtain ⟨j, hj, hji⟩ := h
            have := ih k' j hj
            simp
            omega
      · simp [nthMarkerIdx, hc] at h
        obtain ⟨j, hj, hji⟩ := h
        have := ih k j hj
        simp
        omega

theorem nthMarkerIdx_one_pos (w : List Char) (i : Nat)
    (h : nthMarkerIdx w 1 = some i) : 1 ≤ i := by
  cases w with
  | nil => simp [nthMarkerIdx] at h
  | cons c rest =>
      by_cases hc : isEolMarker c
      · simp [nthMarkerIdx, hc] at h
        obtain ⟨j, _, hji⟩ := h
        omega
      · simp [nthMarkerIdx, hc] at h
        obtain ⟨j, _, hji⟩ := h
        omega

/-- With one marker already counted, the scan stops just past the next one. -/
theorem scanEol_one_of_nth_zero (w : List Char) (i : Nat)
    (h : nthMarkerIdx w 0 = some i) : scanEol w 1 = (i + 1, 2) := by
  induction w generalizing i with
  | nil => simp [nthMarkerIdx] at h
  | cons c rest ih =>
      by_cases hc : isEolMarker c
      · simp [nthMarkerIdx, hc] at h
        subst h
        simp [scanEol, hc, scanEol_of_two_le rest 2 (le_refl 2)]
      · simp [nthMarkerIdx, hc] at h
        obtain ⟨j, hj, hji⟩ := h
        have := ih j hj
        simp [scanEol, hc, this]
        omega

/-- The scan loop stops exactly one byte past the second EOL marker. -/
theorem scanEol_eq_of_second_marker (w : List Char) (i : Nat)
    (h : nthMarkerIdx w 1 = some i) : scanEol w 0 = (i + 1, 2) := by
  induction w generalizing i with
  | nil => simp [nthMarkerIdx] at h
  | cons c rest ih =>
      by_cases hc : isEolMarker c
      · simp [nthMarkerIdx, hc] at h
        obtain ⟨j, hj, hji⟩ := h
        have := scanEol_one_of_nth_zero rest j hj
        simp [scanEol, hc, this]
        omega
      · simp [nthMarkerIdx, hc] at h
        obtain ⟨j, hj, hji⟩ := h
        have := ih j hj
        simp [scanEol, hc, this]
        omega

/-- C2 counterexample: on the pending stream `"a\rb\n"` (two EOL markers
that are not adjacent) `read_line` returns `"a\r"` — the consumed bytes
minus the final two bytes — and not the bytes strictly before the first
EOL marker, which are just `"a"`. -/
theorem read_line_before_first_marker_cex :
    (read_line ['a', '\r', 'b', '\n']).1 = Except.ok ['a', '\r'] ∧
      ['a', '\r'] ≠
        (['a', '\r', 'b', '\n'].takeWhile (fun c => ! isEolMarker c)) := by
  constructor
  · rfl
  · decide

/-- C2 amended: whenever the peeked window (the first `BUFFER_SIZE`
bytes) contains at least two EOL-marker bytes — at index `i` the second
one — `read_line` returns the first `i - 1` pending bytes (the consumed
bytes with the final two stripped; equal to the bytes strictly before
the first marker exactly when the two markers are adjacent) and consumes
exactly the `i + 1` bytes through the second marker, leaving the rest
pending. -/
theorem read_line_consumes_to_second_marker (available : List Char) (i : Nat)
    (h : nthMarkerIdx (available.take BUFFER_SIZE) 1 = some i) :
    read_line available =
      (Except.ok (available.take (i - 1)), available.drop (i + 1)) := by
  have hlt : i < (available.take BUFFER_SIZE).length :=
    nthMarkerIdx_lt_length _ 1 i h
  have hpos : 1 ≤ i := nthMarkerIdx_one_pos _ i h
  have hlen : (available.take BUFFER_SIZE).length > 0 := by omega
  have hscan := scanEol_eq_of_second_marker _ i h
  have hile : i + 1 ≤ available.length := by
    have : (available.take BUFFER_SIZE).length ≤ available.length := by
      simp
    omega
  rw [read_line]
  simp only [recvBytes]
  rw [if_pos hlen, hscan]
  have h2 : ¬ ((i + 1, 2).2 < 2) := by simp
  rw [if_neg h2]
  have hlen2 : (available.take (i + 1)).length = i + 1 := by
    simp
    omega
  rw [hlen2]
  have : i + 1 - 2 = i - 1 := by omega
  rw [this, List.take_take]
  have : min (i - 1) (i + 1) = i - 1 := by omega
  rw [this]

/-- Witness for the amended C2 on the stream `"x\r\nY"`: the second
marker sits at index 2, one byte is returned, three are consumed. -/
theorem read_line_consumes_to_second_marker_witness :
    read_line ['x', '\r', '\n', 'Y'] =
      (Except.ok (['x', '\r', '\n', 'Y'].take 1),
       ['x', '\r', '\n', 'Y'].drop 3) :=
  read_line_consumes_to_second_marker ['x', '\r', '\n', 'Y'] 2 (by decide)

/-! ### `read_line`: empty stream and the "Line not found" error -/

/-- `needle` matches `hay` at its head. -/
def matchesAt : List Char → List Char → Bool
  | [], _ => true
  | _ :: _, [] => false
  | a :: as, b :: bs => a = b && matchesAt as bs

/-- `needle` occurs somewhere inside `hay` (substring containment). -/
def occursIn (needle : List Char) : List Char → Bool
  | [] => matchesAt needle []
  | c :: t => matchesAt needle (c :: t) || occursIn needle t

theorem matchesAt_append (n t : List Char) : matchesAt n (n ++ t) = true := by
  induction n with
  | nil => rfl
  | cons a as ih => simp [matchesAt, ih]

theorem occursIn_append (pre n t : List Char) :
    occursIn n (pre ++ (n ++ t)) = true := by
  induction pre with
  | nil =>
      cases hn : n ++ t with
      | nil =>
          have : n = [] := by
            cases n with
            | nil => rfl
            | cons a as => simp at hn
          simp [this, occursIn, matchesAt]
      | cons c cs =>
          simp only [List.nil_append, hn, occursIn]
          rw [← hn, matchesAt_append]
          simp
  | cons p ps ih =>
      simp only [List.cons_append, occursIn, List.append_eq]
      rw [ih]
      simp

/-- Does a `read_line` result carry the "Line not found" framing error? -/
def isLineNotFound (r : Except socket_error (List Char)) : Bool :=
  match r with
  | Except.error e => occursIn "Line not found".toList e.msg.toList
  | Except.ok _ => false

/-- When fewer than two markers are in the scanned bytes, the loop walks
the whole buffer and counts every marker. -/
theorem scanEol_all_of_count_lt (w : List Char) (f : Nat)
    (h : f + w.countP isEolMarker < 2) :
    scanEol w f = (w.length, f + w.countP isEolMarker) := by
  induction w generalizing f with
  | nil => simp [scanEol]
  | cons c rest ih =>
      have hf : f < 2 := by
        have := Nat.le_add_right f ((c :: rest).countP isEolMarker)
        omega
      by_cases hc : isEolMarker c
      · have hcount : (c :: rest).countP isEolMarker =
            rest.countP isEolMarker + 1 := by
          simp [List.countP_cons, hc]
        have ih' := ih (f + 1) (by omega)
        simp [scanEol, hf, hc, ih']
        omega
      · have hcount : (c :: rest).countP isEolMarker =
            rest.countP isEolMarker := by
          simp [List.countP_cons, hc]
        have ih' := ih f (by omega)
        simp [scanEol, hf, hc, ih']

/-- When at least two markers are available in total, the loop finds two. -/
theorem scanEol_snd_of_two_le (w : List Char) (f : Nat)
    (h : 2 ≤ f + w.countP isEolMarker) : 2 ≤ (scanEol w f).2 := by
  induction w generalizing f with
  | nil => simp [scanEol]; simp [List.countP_nil] at h; omega
  | cons c rest ih =>
      by_cases hf : f < 2
      · by_cases hc : isEolMarker c
        · have : 2 ≤ (f + 1) + rest.countP isEolMarker := by
            simp [List.countP_cons, hc] at h
            omega
          have := ih (f + 1) this
          simp [scanEol, hf, hc]
          omega
        · have : 2 ≤ f + rest.countP isEolMarker := by
            simp [List.countP_cons, hc] at h
            omega
          have := ih f this
          simp [scanEol, hf, hc]
          omega
      · simp [scanEol, hf]
        omega

/-- Evaluation of `read_line` when the peek returns no bytes. -/
theorem read_line_eval_nil (available : List Char)
    (h : ¬ (available.take BUFFER_SIZE).length > 0) :
    read_line available = (Except.ok [], available) := by
  rw [read_line]
  simp only [recvBytes]
  rw [if_neg h]

/-- Evaluation of `read_line` in the framing-error branch. -/
theorem read_line_eval_err (available : List Char)
    (h1 : (available.take BUFFER_SIZE).length > 0)
    (h2 : (scanEol (available.take BUFFER_SIZE) 0).2 < 2) :
    read_line available =
      (Except.error
        ⟨"Line not found: " ++
          toString (scanEol (available.take BUFFER_SIZE) 0).2⟩,
       available) := by
  rw [read_line]
  simp only [recvBytes]
  rw [if_pos h1, if_pos h2]

/-- Evaluation of `read_line` in the success branch. -/
theorem read_line_eval_ok (available : List Char)
    (h1 : (available.take BUFFER_SIZE).length > 0)
    (h2 : ¬ (scanEol (available.take BUFFER_SIZE) 0).2 < 2) :
    read_line available =
      (Except.ok
        ((available.take (scanEol (available.take BUFFER_SIZE) 0).1).take
          ((available.take (scanEol (available.take BUFFER_SIZE) 0).1).length
            - 2)),
       available.drop (scanEol (available.take BUFFER_SIZE) 0).1) := by
  rw [read_line]
  simp only [recvBytes]
  rw [if_pos h1, if_neg h2]

/-- The generated framing-error message embeds "Line not found". -/
theorem lineNotFound_msg (n : Nat) (h : n < 2) :
    occursIn "Line not found".toList
      (("Line not found: " ++ toString n).toList) = true := by
  interval_cases n <;> decide

/-- C3: `read_line` returns the empty string exactly when the peek read
yields zero bytes (the pending stream is empty); it raises the
"Line not found" `socket_error` iff at least one byte is pending but the
peeked window (at most `BUFFER_SIZE` bytes) holds fewer than two
EOL-marker bytes; and in every error case nothing is consumed from the
socket. -/
theorem read_line_error_cases (available : List Char) :
    (available = [] → read_line available = (Except.ok [], available)) ∧
    (isLineNotFound (read_line available).1 = true ↔
      (available ≠ [] ∧
        (available.take BUFFER_SIZE).countP isEolMarker < 2)) ∧
    (∀ e, (read_line available).1 = Except.error e →
      (read_line available).2 = available) := by
  have hwin : available ≠ [] ↔ (available.take BUFFER_SIZE).length > 0 := by
    simp [List.length_take, BUFFER_SIZE]
    constructor
    · intro h
      have : 0 < available.length := List.length_pos.mpr h
      omega
    · intro h
      exact List.length_pos.mp (by omega)
  refine ⟨?_, ?_, ?_⟩
  · intro h
    subst h
    rfl
  · constructor
    · intro hmem
      by_cases h1 : (available.take BUFFER_SIZE).length > 0
      · by_cases h2 : (scanEol (available.take BUFFER_SIZE) 0).2 < 2
        · refine ⟨hwin.mpr h1, ?_⟩
          by_contra hcount
          have hge : 2 ≤ 0 + (available.take BUFFER_SIZE).countP isEolMarker := by
            omega
          have := scanEol_snd_of_two_le _ 0 hge
          omega
        · rw [read_line_eval_ok available h1 h2] at hmem
          simp [isLineNotFound] at hmem
      · rw [read_line_eval_nil available h1] at hmem
        simp [isLineNotFound] at hmem
    · rintro ⟨hne, hcount⟩
      have h1 : (available.take BUFFER_SIZE).length > 0 := hwin.mp hne
      have hs := scanEol_all_of_count_lt (available.take BUFFER_SIZE) 0
        (by omega)
      have h2 : (scanEol (available.take BUFFER_SIZE) 0).2 < 2 := by
        rw [hs]; simpa using hcount
      rw [read_line_eval_err available h1 h2]
      simp only [isLineNotFound]
      exact lineNotFound_msg _ h2
  · intro e he
    by_cases h1 : (available.take BUFFER_SIZE).length > 0
    · by_cases h2 : (scanEol (available.take BUFFER_SIZE) 0).2 < 2
      · rw [read_line_eval_err available h1 h2]
      · rw [read_line_eval_ok available h1 h2] at he
        simp at he
    · rw [read_line_eval_nil available h1] at he
      simp at he

/-- Witness for C3: on the pending stream `"a"` (one byte, no markers)
`read_line` raises the "Line not found" error and consumes nothing, and
on the empty stream it returns the empty string. -/
theorem read_line_error_cases_witness :
    isLineNotFound (read_line ['a']).1 = true ∧
      (read_line ['a']).2 = ['a'] ∧
      read_line [] = (Except.ok [], []) := by
  refine ⟨?_, ?_, ?_⟩
  · exact (read_line_error_cases ['a']).2.1.mpr (by decide)
  · have h := (read_line_error_cases ['a']).2.1.mpr (by decide)
    have h2 := (read_line_error_cases ['a']).2.2
    cases hres : (read_line ['a']).1 with
    | error e => exact h2 e hres
    | ok l => rw [hres] at h; simp [isLineNotFound] at h
  · exact (read_line_error_cases []).1 rfl

/-! ### `socket::read` and `socket::write` over raw OS-call results -/

/-- `socket::read` (socket.hpp lines 63-71), as a function of the value
returned by `::recv` (a C `ssize_t`) and of `errno`: a negative result
throws, anything else is returned as `unsigned(read_length)`. -/
def socket.read (recvRes : Int) (errno : Int) : Except socket_error Nat :=
  if recvRes < 0 then
    Except.error ⟨"Error reading from connected host: " ++ toString errno⟩
  else Except.ok recvRes.toNat

/-- `socket::write` (socket.hpp lines 116-127), as a function of the
stored descriptor `fd_`, the requested `length`, the value returned by
`::send` and `errno`. `if(!fd_)` is the C++ zero test on `fd_`. -/
def socket.write (fd : Int) (length : Nat) (sendRes : Int) (errno : Int) :
    Except socket_error Nat :=
  if fd = 0 then Except.error ⟨"Not connected"⟩
  else if sendRes < 0 then
    Except.error ⟨"Error writing to connected host: " ++ toString errno⟩
  else Except.ok sendRes.toNat

/-- C8: `socket::read` raises a `socket_error` exactly when `::recv`
returns a negative result; a `0`-byte result is returned as `0` to the
caller and is never an error. -/
theorem read_error_iff (recvRes errno : Int) :
    ((∃ e, socket.read recvRes errno = Except.error e) ↔ recvRes < 0) ∧
      socket.read 0 errno = Except.ok 0 := by
  constructor
  · constructor
    · rintro ⟨e, he⟩
      by_contra h
      simp [socket.read, h] at he
    · intro h
      exact ⟨⟨"Error reading from connected host: " ++ toString errno⟩,
        by simp [socket.read, h]⟩
  · rfl

/-- Witness for C8 at `recvRes = -1` and at `recvRes = 0`. -/
theorem read_error_iff_witness :
    (∃ e, socket.read (-1) 9 = Except.error e) ∧
      socket.read 0 9 = Except.ok 0 :=
  ⟨(read_error_iff (-1) 9).1.mpr (by decide), (read_error_iff 0 9).2⟩

/-- C7: `socket::write` raises "Not connected" when the stored
descriptor is the invalid sentinel `0`; otherwise it raises an error
embedding `errno` when `::send` reports an error, and otherwise returns
exactly the number of bytes `::send` wrote — with no constraint tying
that number to the requested `length` (no retry loop). -/
theorem write_spec (fd : Int) (length : Nat) (sendRes errno : Int) :
    (fd = 0 →
      socket.write fd length sendRes errno =
        Except.error ⟨"Not connected"⟩) ∧
    (fd ≠ 0 → sendRes < 0 →
      ∃ e, socket.write fd length sendRes errno = Except.error e ∧
        occursIn (toString errno).toList e.msg.toList = true) ∧
    (fd ≠ 0 → 0 ≤ sendRes →
      socket.write fd length sendRes errno = Except.ok sendRes.toNat) := by
  refine ⟨?_, ?_, ?_⟩
  · intro h
    simp [socket.write, h]
  · intro h hs
    refine ⟨⟨"Error writing to connected host: " ++ toString errno⟩,
      by simp [socket.write, h, hs], ?_⟩
    have : ("Error writing to connected host: " ++ toString errno).toList =
        "Error writing to connected host: ".toList ++
          ((toString errno).toList ++ []) := by
      simp
    rw [this]
    exact occursIn_append _ _ _
  · intro h hs
    simp [socket.write, h, Int.not_lt.mpr hs]

/-- Witness for C7: `fd = 0` gives "Not connected"; a send error on a
live descriptor embeds `errno`; a short send of 2 of 5 requested bytes
is returned as 2. -/
theorem write_spec_witness :
    socket.write 0 5 2 7 = Except.error ⟨"Not connected"⟩ ∧
      (∃ e, socket.write 3 5 (-1) 7 = Except.error e ∧
        occursIn (toString (7 : Int)).toList e.msg.toList = true) ∧
      socket.write 3 5 2 7 = Except.ok 2 :=
  ⟨(write_spec 0 5 2 7).1 rfl,
   (write_spec 3 5 (-1) 7).2.1 (by decide) (by decide),
   (write_spec 3 5 2 7).2.2 (by decide) (by decide)⟩

/-! ### `socket_impl::connect` and the variant finishing steps -/

/-- One record of the `addrinfo` list produced by `getaddrinfo`. The
`sockaddr` payload is opaque and modelled by a `Nat` tag. -/
structure addrinfo where
  ai_family : Int
  ai_socktype : Int
  ai_protocol : Int
  ai_addr : Nat
deriving Repr, DecidableEq

/-- OS calls observable during socket setup and teardown. -/
inductive Event
  | getaddrinfoCall (name : String) (port : Nat)
  | socketCall (family socktype protocol : Int)
  | setsockoptCall (fd : Int)
  | bindCall (fd : Int) (addr : Nat)
  | listenCall (fd : Int) (backlog : Nat)
  | connectCall (fd : Int) (addr : Nat)
  | closeCall (fd : Int)
deriving Repr, DecidableEq

/-- The state of a `socket_impl`: the inherited descriptor `fd_` and the
resolved address list `res0_` (`[]` models the null pointer). -/
structure SocketImplState where
  fd_ : Int
  res0_ : List addrinfo
deriving Repr, DecidableEq

/-- A freshly constructed `socket_impl`: `fd_ = 0`, `res0_ = nullptr`. -/
def SocketImplState.init : SocketImplState := ⟨0, []⟩

/-- `socket_impl::connect` (socket.hpp lines 177-215) as a state
transformer, parameterised by the outcomes of the OS calls:
`resolveRes` is the outcome of `getaddrinfo` (error code, or the
non-empty candidate list split into head and tail), `socketRes` the
value returned by `::socket`, `errno` the error number, and
`do_connect` the variant-specific finishing step of the CRTP-derived
class, which receives the descriptor and the first candidate (the only
parts of the state the derived classes read). Returns the thrown error
or unit, the final state, and the trace of OS calls performed. -/
def socket_impl.connect (st : SocketImplState) (name : String) (port : Nat)
    (resolveRes : Except Int (addrinfo × List addrinfo))
    (socketRes : Int) (errno : Int)
    (do_connect : Int → addrinfo → Except socket_error Unit × List Event) :
    Except socket_error Unit × SocketImplState × List Event :=
  if st.fd_ > 0 then
    (Except.error ⟨"Socket already exists."⟩, st, [])
  else
    match resolveRes with
    | Except.error err =>
        (Except.error
          ⟨"Could not resolve address: (" ++ toString err ++ ")"⟩,
         st, [Event.getaddrinfoCall name port])
    | Except.ok (c0, rest) =>
        let st2 : SocketImplState := ⟨socketRes, c0 :: rest⟩
        if st2.fd_ < 0 then
          (Except.error ⟨"Could not create socket: " ++ toString errno⟩,
           st2,
           [Event.getaddrinfoCall name port,
            Event.socketCall c0.ai_family c0.ai_socktype c0.ai_protocol])
        else
          let fin := do_connect st2.fd_ c0
          (fin.1, st2,
           Event.getaddrinfoCall name port ::
             Event.socketCall c0.ai_family c0.ai_socktype c0.ai_protocol ::
             fin.2)

/-- `server::do_connect` (server.hpp lines 48-77) given the outcomes of
`setsockopt`, `bind` and `listen` and the value of `errno`. -/
def server.do_connect (fd : Int) (cand : addrinfo)
    (setsockoptRes bindRes listenRes errno : Int) :
    Except socket_error Unit × List Event :=
  if setsockoptRes < 0 then
    (Except.error ⟨"Could not configure socket: " ++ toString errno⟩,
     [Event.setsockoptCall fd])
  else if bindRes < 0 then
    (Except.error ⟨"Could not bind to socket: " ++ toString errno⟩,
     [Event.setsockoptCall fd, Event.bindCall fd cand.ai_addr])
  else if listenRes < 0 then
    (Except.error
      ⟨"Could not listen for incoming connections: " ++ toString errno⟩,
     [Event.setsockoptCall fd, Event.bindCall fd cand.ai_addr,
      Event.listenCall fd 10000])
  else
    (Except.ok (),
     [Event.setsockoptCall fd, Event.bindCall fd cand.ai_addr,
      Event.listenCall fd 10000])

/-- `client::do_connect` (client.hpp lines 42-48) given the outcome of
`::connect` and the value of `errno`. -/
def client.do_connect (fd : Int) (cand : addrinfo)
    (connectRes errno : Int) :
    Except socket_error Unit × List Event :=
  if connectRes < 0 then
    (Except.error ⟨"Connection failed: " ++ toString errno⟩,
     [Event.connectCall fd cand.ai_addr])
  else
    (Except.ok (), [Event.connectCall fd cand.ai_addr])

/-- C4: `connect` on a handle already holding a valid descriptor
(`fd_ > 0`) raises "Socket already exists." immediately: the state
(descriptor and stored address set) is unchanged and the trace is empty
— no resolution and no descriptor creation happened — whatever the
variant-specific finishing step (client or server) is. -/
theorem connect_already_exists (st : SocketImplState) (name : String)
    (port : Nat) (resolveRes : Except Int (addrinfo × List addrinfo))
    (socketRes errno : Int)
    (dc : Int → addrinfo → Except socket_error Unit × List Event)
    (h : st.fd_ > 0) :
    socket_impl.connect st name port resolveRes socketRes errno dc =
      (Except.error ⟨"Socket already exists."⟩, st, []) := by
  simp [socket_impl.connect, h]

/-- Witness for C4, on a handle with `fd_ = 5` and the server finishing
step. -/
theorem connect_already_exists_witness :
    socket_impl.connect ⟨5, []⟩ "localhost" 1234
        (Except.ok (⟨2, 1, 6, 0⟩, [])) 7 0
        (fun fd cand => server.do_connect fd cand 0 0 0 0) =
      (Except.error ⟨"Socket already exists."⟩, ⟨5, []⟩, []) :=
  connect_already_exists ⟨5, []⟩ "localhost" 1234
    (Except.ok (⟨2, 1, 6, 0⟩, [])) 7 0
    (fun fd cand => server.do_connect fd cand 0 0 0 0) (by decide)

/-- C5: on a handle with no valid descriptor, `connect` performs
resolution, then descriptor creation from the first candidate's
family/socktype/protocol, then the variant finishing step on the first
candidate — in that order, stopping at the first failure with an error
embedding the resolver's error code resp. `errno`, and never touching
any candidate beyond the first (`rest` influences only the stored
`res0_` list). -/
theorem connect_steps (st : SocketImplState) (name : String) (port : Nat)
    (c0 : addrinfo) (rest : List addrinfo) (socketRes errno : Int)
    (dc : Int → addrinfo → Except socket_error Unit × List Event)
    (h : ¬ st.fd_ > 0) :
    (∀ err : Int,
      ∃ e, socket_impl.connect st name port (Except.error err)
          socketRes errno dc =
        (Except.error e, st, [Event.getaddrinfoCall name port]) ∧
        occursIn (toString err).toList e.msg.toList = true) ∧
    (socketRes < 0 →
      ∃ e, socket_impl.connect st name port (Except.ok (c0, rest))
          socketRes errno dc =
        (Except.error e, ⟨socketRes, c0 :: rest⟩,
         [Event.getaddrinfoCall name port,
          Event.socketCall c0.ai_family c0.ai_socktype c0.ai_protocol]) ∧
        occursIn (toString errno).toList e.msg.toList = true) ∧
    (¬ socketRes < 0 →
      socket_impl.connect st name port (Except.ok (c0, rest))
          socketRes errno dc =
        ((dc socketRes c0).1, ⟨socketRes, c0 :: rest⟩,
         Event.getaddrinfoCall name port ::
           Event.socketCall c0.ai_family c0.ai_socktype c0.ai_protocol ::
           (dc socketRes c0).2)) := by
  refine ⟨?_, ?_, ?_⟩
  · intro err
    refine ⟨⟨"Could not resolve address: (" ++ toString err ++ ")"⟩,
      by simp [socket_impl.connect, h], ?_⟩
    have : ("Could not resolve address: (" ++ toString err ++ ")").toList =
        "Could not resolve address: (".toList ++
          ((toString err).toList ++ ")".toList) := by
      simp
    rw [this]
    exact occursIn_append _ _ _
  · intro hs
    refine ⟨⟨"Could not create socket: " ++ toString errno⟩,
      by simp [socket_impl.connect, h, hs], ?_⟩
    have : ("Could not create socket: " ++ toString errno).toList =
        "Could not create socket: ".toList ++
          ((toString errno).toList ++ []) := by
      simp
    rw [this]
    exact occursIn_append _ _ _
  · intro hs
    simp [socket_impl.connect, h, hs]

/-- Witness for C5: the three branches at concrete oracle outcomes, on a
fresh handle with the client finishing step. -/
theorem connect_steps_witness :
    (∃ e, socket_impl.connect SocketImplState.init "h" 80
        (Except.error (-2)) 4 0
        (fun fd cand => client.do_connect fd cand 0 0) =
      (Except.error e, SocketImplState.init,
       [Event.getaddrinfoCall "h" 80]) ∧
      occursIn (toString (-2 : Int)).toList e.msg.toList = true) ∧
    (∃ e, socket_impl.connect SocketImplState.init "h" 80
        (Except.ok (⟨2, 1, 6, 11⟩, [])) (-1) 24
        (fun fd cand => client.do_connect fd cand 0 0) =
      (Except.error e, ⟨-1, [⟨2, 1, 6, 11⟩]⟩,
       [Event.getaddrinfoCall "h" 80, Event.socketCall 2 1 6]) ∧
      occursIn (toString (24 : Int)).toList e.msg.toList = true) ∧
    socket_impl.connect SocketImplState.init "h" 80
        (Except.ok (⟨2, 1, 6, 11⟩, [])) 4 0
        (fun fd cand => client.do_connect fd cand 0 0) =
      (Except.ok (), ⟨4, [⟨2, 1, 6, 11⟩]⟩,
       [Event.getaddrinfoCall "h" 80, Event.socketCall 2 1 6,
        Event.connectCall 4 11]) :=
  ⟨(connect_steps SocketImplState.init "h" 80 ⟨2, 1, 6, 11⟩ [] 4 0
      (fun fd cand => client.do_connect fd cand 0 0) (by decide)).1 (-2),
   (connect_steps SocketImplState.init "h" 80 ⟨2, 1, 6, 11⟩ [] (-1) 24
      (fun fd cand => client.do_connect fd cand 0 0) (by decide)).2.1
     (by decide),
   (connect_steps SocketImplState.init "h" 80 ⟨2, 1, 6, 11⟩ [] 4 0
      (fun fd cand => client.do_connect fd cand 0 0) (by decide)).2.2
     (by decide)⟩

/-- C6: the server finishing step performs `setsockopt(SO_REUSEADDR)`,
then `bind` to the first resolved local address, then `listen` with the
fixed backlog 10000, in that order; on success all three calls appear in
the trace, and a failure of any call raises an error embedding the OS
error code with none of the subsequent calls performed. -/
theorem server_do_connect_steps (fd : Int) (cand : addrinfo)
    (setsockoptRes bindRes listenRes errno : Int) :
    (¬ setsockoptRes < 0 → ¬ bindRes < 0 → ¬ listenRes < 0 →
      server.do_connect fd cand setsockoptRes bindRes listenRes errno =
        (Except.ok (),
         [Event.setsockoptCall fd, Event.bindCall fd cand.ai_addr,
          Event.listenCall fd 10000])) ∧
    (setsockoptRes < 0 →
      ∃ e, server.do_connect fd cand setsockoptRes bindRes listenRes errno =
        (Except.error e, [Event.setsockoptCall fd]) ∧
        occursIn (toString errno).toList e.msg.toList = true) ∧
    (¬ setsockoptRes < 0 → bindRes < 0 →
      ∃ e, server.do_connect fd cand setsockoptRes bindRes listenRes errno =
        (Except.error e,
         [Event.setsockoptCall fd, Event.bindCall fd cand.ai_addr]) ∧
        occursIn (toString errno).toList e.msg.toList = true) ∧
    (¬ setsockoptRes < 0 → ¬ bindRes < 0 → listenRes < 0 →
      ∃ e, server.do_connect fd cand setsockoptRes bindRes listenRes errno =
        (Except.error e,
         [Event.setsockoptCall fd, Event.bindCall fd cand.ai_addr,
          Event.listenCall fd 10000]) ∧
        occursIn (toString errno).toList e.msg.toList = true) := by
  refine ⟨?_, ?_, ?_, ?_⟩
  · intro h1 h2 h3
    simp [server.do_connect, h1, h2, h3]
  · intro h1
    refine ⟨⟨"Could not configure socket: " ++ toString errno⟩,
      by simp [server.do_connect, h1], ?_⟩
    have : ("Could not configure socket: " ++ toString errno).toList =
        "Could not configure socket: ".toList ++
          ((toString errno).toList ++ []) := by
      simp
    rw [this]
    exact occursIn_append _ _ _
  · intro h1 h2
    refine ⟨⟨"Could not bind to socket: " ++ toString errno⟩,
      by simp [server.do_connect, h1, h2], ?_⟩
    have : ("Could not bind to socket: " ++ toString errno).toList =
        "Could not bind to socket: ".toList ++
          ((toString errno).toList ++ []) := by
      simp
    rw [this]
    exact occursIn_append _ _ _
  · intro h1 h2 h3
    refine ⟨⟨"Could not listen for incoming connections: " ++
        toString errno⟩,
      by simp [server.do_connect, h1, h2, h3], ?_⟩
    have : ("Could not listen for incoming connections: " ++
          toString errno).toList =
        "Could not listen for incoming connections: ".toList ++
          ((toString errno).toList ++ []) := by
      simp
    rw [this]
    exact occursIn_append _ _ _

/-- Witness for C6: the success case and the bind-failure case at
concrete OS outcomes. -/
theorem server_do_connect_steps_witness :
    server.do_connect 4 ⟨2, 1, 6, 11⟩ 0 0 0 0 =
      (Except.ok (),
       [Event.setsockoptCall 4, Event.bindCall 4 11,
        Event.listenCall 4 10000]) ∧
    (∃ e, server.do_connect 4 ⟨2, 1, 6, 11⟩ 0 (-1) 0 98 =
      (Except.error e, [Event.setsockoptCall 4, Event.bindCall 4 11]) ∧
      occursIn (toString (98 : Int)).toList e.msg.toList = true) :=
  ⟨(server_do_connect_steps 4 ⟨2, 1, 6, 11⟩ 0 0 0 0).1
      (by decide) (by decide) (by decide),
   (server_do_connect_steps 4 ⟨2, 1, 6, 11⟩ 0 (-1) 0 98).2.2.1
      (by decide) (by decide)⟩

/-- C10: `connect` is not atomic on error. If the finishing step throws,
the handle keeps the freshly created positive descriptor, so a second
`connect` on it raises "Socket already exists."; if resolution fails the
state — descriptor included — is unchanged, so a retry on a fresh handle
runs the full sequence again; and if descriptor creation fails the
stored descriptor is the negative return value of `::socket`, so a
subsequent `write` passes the `!fd_` check instead of raising
"Not connected". -/
theorem connect_not_atomic (st : SocketImplState) (name : String)
    (port : Nat) (c0 : addrinfo) (rest : List addrinfo)
    (socketRes errno : Int)
    (dc : Int → addrinfo → Except socket_error Unit × List Event)
    (h : ¬ st.fd_ > 0) :
    (∀ e evs, socketRes > 0 → dc socketRes c0 = (Except.error e, evs) →
      (socket_impl.connect st name port (Except.ok (c0, rest))
          socketRes errno dc).2.1.fd_ = socketRes ∧
      (∀ rr2 sr2 er2 dc2,
        socket_impl.connect
            (socket_impl.connect st name port (Except.ok (c0, rest))
              socketRes errno dc).2.1
            name port rr2 sr2 er2 dc2 =
          (Except.error ⟨"Socket already exists."⟩,
           (socket_impl.connect st name port (Except.ok (c0, rest))
             socketRes errno dc).2.1, []))) ∧
    (∀ err : Int,
      (socket_impl.connect st name port (Except.error err)
          socketRes errno dc).2.1 = st) ∧
    (socketRes < 0 →
      (socket_impl.connect st name port (Except.ok (c0, rest))
          socketRes errno dc).2.1.fd_ = socketRes ∧
      ∀ len : Nat, ∀ sendRes er2 : Int, 0 ≤ sendRes →
        socket.write
            (socket_impl.connect st name port (Except.ok (c0, rest))
              socketRes errno dc).2.1.fd_
            len sendRes er2 = Except.ok sendRes.toNat) := by
  have hstep : ∀ hs : ¬ socketRes < 0,
      (socket_impl.connect st name port (Except.ok (c0, rest))
        socketRes errno dc).2.1 = ⟨socketRes, c0 :: rest⟩ := by
    intro hs
    simp [socket_impl.connect, h, hs]
  refine ⟨?_, ?_, ?_⟩
  · intro e evs hpos hdc
    have hs : ¬ socketRes < 0 := by omega
    rw [hstep hs]
    refine ⟨rfl, ?_⟩
    intro rr2 sr2 er2 dc2
    simp [socket_impl.connect, hpos]
  · intro err
    simp [socket_impl.connect, h]
  · intro hs
    have : (socket_impl.connect st name port (Except.ok (c0, rest))
        socketRes errno dc).2.1 = ⟨socketRes, c0 :: rest⟩ := by
      simp [socket_impl.connect, h, hs]
    rw [this]
    refine ⟨rfl, ?_⟩
    intro len sendRes er2 hsend
    have hne : socketRes ≠ 0 := by omega
    simp [socket.write, hne, Int.not_lt.mpr hsend]

/-- Witness for C10: a failed client `::connect` leaves `fd_ = 4` and a
second `connect` raises "Socket already exists."; a failed `::socket`
leaves `fd_ = -1` and a subsequent `write` of 2 bytes succeeds. -/
theorem connect_not_atomic_witness :
    ((socket_impl.connect SocketImplState.init "h" 80
        (Except.ok (⟨2, 1, 6, 11⟩, [])) 4 111
        (fun fd cand => client.do_connect fd cand (-1) 111)).2.1.fd_ = 4 ∧
      socket_impl.connect
          (socket_impl.connect SocketImplState.init "h" 80
            (Except.ok (⟨2, 1, 6, 11⟩, [])) 4 111
            (fun fd cand => client.do_connect fd cand (-1) 111)).2.1
          "h" 80 (Except.ok (⟨2, 1, 6, 11⟩, [])) 5 0
          (fun fd cand => client.do_connect fd cand 0 0) =
        (Except.error ⟨"Socket already exists."⟩,
         (socket_impl.connect SocketImplState.init "h" 80
           (Except.ok (⟨2, 1, 6, 11⟩, [])) 4 111
           (fun fd cand => client.do_connect fd cand (-1) 111)).2.1, [])) ∧
    ((socket_impl.connect SocketImplState.init "h" 80
        (Except.ok (⟨2, 1, 6, 11⟩, [])) (-1) 24
        (fun fd cand => client.do_connect fd cand 0 0)).2.1.fd_ = -1 ∧
      socket.write
          (socket_impl.connect SocketImplState.init "h" 80
            (Except.ok (⟨2, 1, 6, 11⟩, [])) (-1) 24
            (fun fd cand => client.do_connect fd cand 0 0)).2.1.fd_
          2 2 0 = Except.ok 2) := by
  have h1 := (connect_not_atomic SocketImplState.init "h" 80 ⟨2, 1, 6, 11⟩
      [] 4 111 (fun fd cand => client.do_connect fd cand (-1) 111)
      (by decide)).1
    ⟨"Connection failed: " ++ toString (111 : Int)⟩
    [Event.connectCall 4 11] (by decide) rfl
  have h3 := (connect_not_atomic SocketImplState.init "h" 80 ⟨2, 1, 6, 11⟩
      [] (-1) 24 (fun fd cand => client.do_connect fd cand 0 0)
      (by decide)).2.2 (by decide)
  exact ⟨⟨h1.1, h1.2 (Except.ok (⟨2, 1, 6, 11⟩, [])) 5 0
      (fun fd cand => client.do_connect fd cand 0 0)⟩,
    ⟨h3.1, h3.2 2 2 0 (by decide)⟩⟩

/-! ### Handle lifetime: constructors, copy constructor, destructor -/

/-- A live `net::socket` handle: its identity and its stored `fd_`. -/
structure Handle where
  hid : Nat
  fd : Int
deriving Repr, DecidableEq

/-- Lifecycle operations on `net::socket` handles: `socket(int fd)`
construction (`socket()` is `construct 0`), copy construction from a
live handle, and destruction. -/
inductive HandleOp
  | construct (fd : Int)
  | copyFrom (hid : Nat)
  | destroy (hid : Nat)
deriving Repr, DecidableEq

/-- The world of live handles, with a fresh-identity counter and the
trace of `::close` calls performed by destructors. -/
structure World where
  nextId : Nat
  live : List Handle
  trace : List Event
deriving Repr, DecidableEq

def World.init : World := ⟨0, [], []⟩

/-- One lifecycle step. The copy constructor
(`socket(const socket& s) : fd_(s.fd_)`) duplicates the descriptor
value into the new handle; the destructor removes the handle and calls
`::close(fd_)` only when `fd_ > 0`. -/
def hstep (w : World) : HandleOp → World
  | HandleOp.construct fd =>
      ⟨w.nextId + 1, ⟨w.nextId, fd⟩ :: w.live, w.trace⟩
  | HandleOp.copyFrom hid =>
      match w.live.find? (fun h => h.hid = hid) with
      | some h => ⟨w.nextId + 1, ⟨w.nextId, h.fd⟩ :: w.live, w.trace⟩
      | none => w
  | HandleOp.destroy hid =>
      match w.live.find? (fun h => h.hid = hid) with
      | some h =>
          ⟨w.nextId, w.live.filter (fun x => x.hid ≠ hid),
           if h.fd > 0 then w.trace ++ [Event.closeCall h.fd] else w.trace⟩
      | none => w

/-- Run a sequence of lifecycle operations from the empty world. -/
def runOps (ops : List HandleOp) : World := ops.foldl hstep World.init

/-- No two distinct live handles hold the same descriptor value. -/
def uniqueOwnership (w : World) : Prop :=
  ∀ h1 ∈ w.live, ∀ h2 ∈ w.live, h1 ≠ h2 → h1.fd ≠ h2.fd

instance (w : World) : Decidable (uniqueOwnership w) := by
  unfold uniqueOwnership
  infer_instance

/-- C9 counterexample: constructing a handle around descriptor `5` and
then copy-constructing from it leaves two distinct live handles that
both hold descriptor `5` — the claimed at-most-one-owner invariant fails
on the sequence `[construct 5, copy 0]`. -/
theorem uniqueOwnership_cex :
    ¬ uniqueOwnership
        (runOps [HandleOp.construct 5, HandleOp.copyFrom 0]) := by
  decide

/-- Every close in a world's trace closed a positive descriptor. -/
def closesPositive (w : World) : Prop :=
  ∀ fd : Int, Event.closeCall fd ∈ w.trace → fd > 0

theorem hstep_closesPositive (w : World) (op : HandleOp)
    (h : closesPositive w) : closesPositive (hstep w op) := by
  cases op with
  | construct fd => exact h
  | copyFrom hid =>
      cases hfind : w.live.find? (fun x => x.hid = hid) with
      | some x => intro fd hm; exact h fd (by simpa [hstep, hfind] using hm)
      | none => intro fd hm; exact h fd (by simpa [hstep, hfind] using hm)
  | destroy hid =>
      cases hfind : w.live.find? (fun x => x.hid = hid) with
      | some x =>
          intro fd hm
          simp only [hstep, hfind] at hm
          by_cases hx : x.fd > 0
          · rw [if_pos hx] at hm
            rcases List.mem_append.mp hm with hm1 | hm2
            · exact h fd hm1
            · simp at hm2
              omega
          · rw [if_neg hx] at hm
            exact h fd hm
      | none => intro fd hm; exact h fd (by simpa [hstep, hfind] using hm)

/-- C9 amended: through any sequence of constructions, copies and
destructions, a `::close` is attempted only on descriptors whose stored
value was valid (`> 0`); the at-most-one-owner half of the claim fails
because the copy constructor duplicates the descriptor value (see the
counterexample). -/
theorem runOps_closesPositive (ops : List HandleOp) :
    ∀ fd : Int, Event.closeCall fd ∈ (runOps ops).trace → fd > 0 := by
  have general : ∀ ops' : List HandleOp, ∀ w : World, closesPositive w →
      closesPositive (ops'.foldl hstep w) := by
    intro ops'
    induction ops' with
    | nil => intro w hw; exact hw
    | cons op rest ih =>
        intro w hw
        exact ih (hstep w op) (hstep_closesPositive w op hw)
  exact general ops World.init (by intro fd hm; simp [World.init] at hm)

/-- Witness for the amended C9: destroying both owners of descriptor `5`
and a handle with the invalid sentinel produces exactly two close calls,
both on the positive descriptor. -/
theorem runOps_closesPositive_witness :
    (runOps [HandleOp.construct 5, HandleOp.copyFrom 0,
        HandleOp.construct 0, HandleOp.destroy 0, HandleOp.destroy 1,
        HandleOp.destroy 2]).trace =
      [Event.closeCall 5, Event.closeCall 5] ∧
    (5 : Int) > 0 :=
  ⟨by decide,
   runOps_closesPositive [HandleOp.construct 5, HandleOp.copyFrom 0,
      HandleOp.construct 0, HandleOp.destroy 0, HandleOp.destroy 1,
      HandleOp.destroy 2] 5 (by decide)⟩

end Net
